import Mathlib

/-!
Verification of the Lambda token authorizer
(src/auth-service/backend/lambda/authorizer/authorizer.py).

The Python module is embedded shallowly:

* JSON claim values are the inductive type CVal; Python dicts keyed by
  strings are association lists with the exact insertion-order semantics of
  CPython dicts (update in place keeps the position, a new key is appended).
* The network collaborators (the JWKS endpoint, the authlib verifier, the
  Verified Permissions client) are oracles carried in an Env record; the
  functions of the module are translated line by line against those oracles.
* The process-wide JWKS_CACHE is threaded explicitly: lambda_handler takes
  the cache as an argument and returns the cache left behind, and the result
  record additionally reports how often the key set was re-fetched, how often
  the verifier ran, and which request (if any) reached the policy engine.
* Exceptions become Except values. The handler catches JoseError and
  ValueError only; the one statement that can raise anything else is the
  group extraction, where iter() applied to a non-iterable claim value
  raises a TypeError that no handler catches.
-/

/-- JSON-style values as they appear in a decoded JWT claims payload. -/
inductive CVal where
  | s (v : String)
  | arr (vs : List CVal)
  | num (n : Int)
  | bool (b : Bool)
  | null

/-- A decoded claims payload: a Python dict from claim name to value. -/
abbrev Claims := List (String × CVal)

/-- A JWKS document as fetched from the identity provider. -/
abbrev Jwks := List (String × CVal)

/-- Python dict lookup, d.get(k): the value stored at key k, if any. -/
def dlookup : List (String × α) → String → Option α
  | [], _ => none
  | p :: d, k => if p.1 == k then some p.2 else dlookup d k

/-- Python dict item assignment d[k] = v: an existing key keeps its position
    and gets the new value; a new key is appended at the end. -/
def dinsert (k : String) (v : α) : List (String × α) → List (String × α)
  | [] => [(k, v)]
  | p :: d => if p.1 == k then (k, v) :: d else p :: dinsert k v d

/-- A sequence of dict item assignments, performed left to right. -/
def insertAll (l : List (String × α)) (init : List (String × α)) :
    List (String × α) :=
  l.foldl (fun d p => dinsert p.1 p.2 d) init

/-- A Python dict comprehension over a produced list of key-value pairs. -/
def dictOfList (l : List (String × α)) : List (String × α) := insertAll l []

/-- The value of the last pair carrying key k, if any: the binding that
    survives when the pairs are inserted into a dict left to right. -/
def lastVal (k : String) : List (String × α) → Option α
  | [] => none
  | p :: l =>
      match lastVal k l with
      | some v => some v
      | none => if p.1 == k then some p.2 else none

/-- Python substring test, pat in s, on character lists. -/
def pyContains (pat : List Char) : List Char → Bool
  | [] => pat.isPrefixOf []
  | c :: cs => pat.isPrefixOf (c :: cs) || pyContains pat cs

/-- One left-to-right pass of Python str.replace(pat, "") on character lists.
    The counter holds how many characters of a just-matched occurrence still
    have to be skipped, making the recursion structural. -/
def replAllAux (pat : List Char) : List Char → Nat → List Char
  | [], _ => []
  | _ :: cs, Nat.succ k => replAllAux pat cs k
  | c :: cs, 0 =>
      if pat.isPrefixOf (c :: cs) ∧ 0 < pat.length then
        replAllAux pat cs (pat.length - 1)
      else
        c :: replAllAux pat cs 0

/-- Python str.replace(pat, ""): every occurrence of pat is removed. -/
def replAll (pat s : List Char) : List Char := replAllAux pat s 0

/-- String-level wrapper for str.replace(pat, ""). -/
def pyRemoveAll (pat s : String) : String := ⟨replAll pat.data s.data⟩

/-- authlib JoseError, as observed by the handler through str(exc). -/
structure JoseError where
  msg : String

/-- Python ValueError as raised by validate_claims. -/
structure ValueErr where
  msg : String

/-- requests.RequestException during the JWKS fetch. -/
structure ReqError where
  msg : String

/-- Failures of the Verified Permissions call: a botocore ClientError with an
    error code, or any other unexpected exception. -/
inductive VPError where
  | clientError (code : String) (msg : String)
  | otherError (msg : String)

/-- The Verified Permissions is_authorized response; the decision field may be
    missing, in which case the code substitutes "DENY". -/
structure VPResp where
  decision : Option String

/-- The one runtime error kind the handler does not catch: the TypeError that
    iter() raises on a non-iterable group-membership claim value. -/
inductive PyErr where
  | typeError

/-- A typed attribute value in the Verified Permissions entity schema. The
    schema distinguishes string, long and boolean tags; wrap_value in the
    source only ever builds the string variant. -/
inductive AttrVal where
  | string (v : CVal)
  | long (n : Int)
  | boolean (b : Bool)

/-- An entity reference: entityType plus entityId. -/
structure EntityIdent where
  entityType : String
  entityId : CVal

/-- An action reference: actionType plus actionId. -/
structure ActionIdent where
  actionType : String
  actionId : String

/-- One entry of the auxiliary entity list: an identifier with attributes. -/
structure EntityDef where
  identifier : EntityIdent
  attributes : List (String × AttrVal)

/-- The entities field of the request. -/
structure EntitiesField where
  entityList : List EntityDef

/-- The Verified Permissions authorization request built by the module. -/
structure AuthRequest where
  policyStoreId : String
  principal : EntityIdent
  action : ActionIdent
  resource : EntityIdent
  entities : EntitiesField

/-- One statement of the IAM policy document. -/
structure IamStatement where
  Action : String
  Effect : String
  Resource : String

/-- The IAM policy document handed to API Gateway. -/
structure PolicyDocument where
  Version : String
  Statement : List IamStatement

/-- The full authorizer response: principal, policy document and context. -/
structure AuthorizerResponse where
  principalId : CVal
  policyDocument : PolicyDocument
  context : List (String × CVal)

/-- Startup configuration plus the external collaborators of the process:
    the token verifier, the outcome the JWKS endpoint would produce for a
    fetch during this evaluation, and the policy engine. -/
structure Env where
  region : String
  user_pool_id : String
  client_id : String
  policy_store_id : String
  decode : String → Jwks → Except JoseError Claims
  fetchOutcome : Except ReqError Jwks
  vpResult : AuthRequest → Except VPError VPResp

/-- The API Gateway authorizer event, restricted to the fields the code
    reads: event.get("authorizationToken", "") and event.get("methodArn", "*"). -/
structure Event where
  authorizationToken : Option String
  methodArn : Option String

/-- authorizer.fetch_jwks: returns the body of a successful fetch, and the
    empty dict on any requests.RequestException. -/
def fetch_jwks (outcome : Except ReqError Jwks) : Jwks :=
  match outcome with
  | .ok j => j
  | .error _ => []

/-- authorizer.decode_and_validate_token: JWT_VERIFIER.decode followed by
    claims.validate(), raising JoseError on any validation issue. Both steps
    live in the decode oracle. -/
def decode_and_validate_token (env : Env) (token : String) (jwks : Jwks) :
    Except JoseError Claims :=
  env.decode token jwks

/-- Outcome of refresh_jwks_and_retry: the claims or the re-raised error, the
    replacement written to the global cache (if any), and the number of JWKS
    fetches performed. -/
structure RefreshResult where
  res : Except JoseError Claims
  newCache : Option Jwks
  fetches : Nat

/-- authorizer.refresh_jwks_and_retry: when the error message mentions a
    missing key, fetch the key set once, overwrite the global cache with the
    result, and decode once more; otherwise re-raise the error. -/
def refresh_jwks_and_retry (env : Env) (token : String) (exc_msg : String) :
    RefreshResult :=
  if pyContains ("Key not found").data exc_msg.data then
    let new_jwks := fetch_jwks env.fetchOutcome
    { res := env.decode token new_jwks, newCache := some new_jwks, fetches := 1 }
  else
    { res := .error ⟨exc_msg⟩, newCache := none, fetches := 0 }

/-- The issuer string the f-string in validate_claims builds from the region
    and the user pool id. -/
def expected_issuer (region user_pool_id : String) : String :=
  "https://cognito-idp." ++ region ++ ".amazonaws.com/" ++ user_pool_id

/-- The Python equality test claims.get(name) == expected between an optional
    claim value and a string: true exactly for an equal string value. -/
def cvalEqStr (v : Option CVal) (s : String) : Bool :=
  match v with
  | some (.s t) => t == s
  | _ => false

/-- authorizer.validate_claims: audience first, then issuer, each compared for
    exact string equality; a mismatch raises ValueError. -/
def validate_claims (claims : Claims) (client_id region user_pool_id : String) :
    Except ValueErr Unit :=
  if cvalEqStr (dlookup claims "aud") client_id = false then
    .error ⟨"Invalid audience"⟩
  else if cvalEqStr (dlookup claims "iss")
      (expected_issuer region user_pool_id) = false then
    .error ⟨"Invalid issuer"⟩
  else
    .ok ()

/-- wrap_value inside build_auth_request: wraps a runtime value as a typed
    string value. -/
def wrap_value (val : CVal) : AttrVal := .string val

/-- authorizer.build_auth_request: the principal attributes start from the
    dict literal holding "group" and then receive one dict assignment per
    custom attribute; the request carries the principal reference twice, as
    the query subject and inside the auxiliary entity list. -/
def build_auth_request (policy_store_id : String) (principal_id : CVal)
    (group_value : CVal) (custom_attributes : List (String × CVal))
    (action_id : String) (resource_id : String) : AuthRequest :=
  let principal_attributes :=
    insertAll (custom_attributes.map (fun p => (p.1, wrap_value p.2)))
      [("group", wrap_value group_value)]
  { policyStoreId := policy_store_id
    principal := { entityType := "ExampleCo::Connectiv::User", entityId := principal_id }
    action := { actionType := "ExampleCo::Connectiv::Action", actionId := action_id }
    resource := { entityType := "ExampleCo::Connectiv::Resource", entityId := .s resource_id }
    entities := { entityList := [
      { identifier := { entityType := "ExampleCo::Connectiv::User", entityId := principal_id }
        attributes := principal_attributes } ] } }

/-- authorizer.evaluate_policy: Allow exactly when the response carries the
    explicit ALLOW decision; a missing decision defaults to DENY, and every
    exception is caught and mapped to Deny. -/
def evaluate_policy (vpOutcome : Except VPError VPResp) : String :=
  match vpOutcome with
  | .ok resp => if resp.decision.getD "DENY" = "ALLOW" then "Allow" else "Deny"
  | .error _ => "Deny"

/-- authorizer.generate_policy: the fixed-version document with its single
    statement, and the context with "username" assigned after the optional
    caller context (a Python default of None is passed as none). -/
def generate_policy (principal_id : CVal) (effect : String) (resource : String)
    (context_data : Option (List (String × CVal))) : AuthorizerResponse :=
  let ctx0 := context_data.getD []
  let policy_document : PolicyDocument :=
    { Version := "2012-10-17"
      Statement := [{ Action := "execute-api:Invoke", Effect := effect, Resource := resource }] }
  { principalId := principal_id
    policyDocument := policy_document
    context := dinsert "username" principal_id ctx0 }

/-- authorizer.extract_custom_attributes: the dict comprehension that keeps
    claims whose name starts with "custom:" and applies
    key.replace("custom:", "") to the key. -/
def extract_custom_attributes (claims : Claims) : List (String × CVal) :=
  dictOfList ((claims.filter (fun p => ("custom:").data.isPrefixOf p.1.data)).map
    (fun p => (pyRemoveAll "custom:" p.1, p.2)))

/-- Models next(iter(claims.get("cognito:groups", [])), "Unknown") inside
    lambda_handler: the first element of a list value, the default for an
    absent claim or an empty list, the first character for a string value,
    and an uncaught TypeError from iter() for any non-iterable value. -/
def firstOrUnknown : Option CVal → Except PyErr CVal
  | none => .ok (.s "Unknown")
  | some (.arr []) => .ok (.s "Unknown")
  | some (.arr (g :: _)) => .ok g
  | some (.s t) =>
      match t.data with
      | [] => .ok (.s "Unknown")
      | c :: _ => .ok (.s ⟨[c]⟩)
  | some _ => .error .typeError

/-- The token extraction at the top of lambda_handler:
    event.get("authorizationToken", "") with a leading "Bearer " removed. -/
def eventToken (event : Event) : String :=
  let t := event.authorizationToken.getD ""
  if ("Bearer ").data.isPrefixOf t.data then ⟨t.data.drop ("Bearer ").data.length⟩
  else t

/-- Outcome of the inner try of lambda_handler: the claims or the error, the
    cache left behind, and how many fetches and decode calls happened. -/
structure AcqResult where
  res : Except JoseError Claims
  cache : Jwks
  fetches : Nat
  decodeCalls : Nat

/-- The inner try of lambda_handler: one decode attempt against the current
    cache, then on JoseError the single refresh-and-retry. -/
def acquire_claims (env : Env) (cache : Jwks) (token : String) : AcqResult :=
  match decode_and_validate_token env token cache with
  | .ok claims => { res := .ok claims, cache := cache, fetches := 0, decodeCalls := 1 }
  | .error e =>
      let r := refresh_jwks_and_retry env token e.msg
      { res := r.res, cache := r.newCache.getD cache, fetches := r.fetches,
        decodeCalls := 1 + r.fetches }

/-- What one evaluation of lambda_handler produces: the returned policy (or
    the uncaught error), the cache left for the next evaluation, and the
    ghost observations used by the theorems below. -/
structure HandlerResult where
  result : Except PyErr AuthorizerResponse
  cache : Jwks
  refreshCount : Nat
  decodeCalls : Nat
  engineCalled : Bool
  authRequest : Option AuthRequest

/-- authorizer.lambda_handler over explicit process state. A JoseError from
    the acquisition or a ValueError from validate_claims is caught and maps
    to the Deny policy with the "unknown" principal; the TypeError from the
    group extraction is caught by nothing and escapes. -/
def lambda_handler (env : Env) (cache : Jwks) (event : Event) : HandlerResult :=
  let token := eventToken event
  let arn := (event.methodArn).getD "*"
  let acq := acquire_claims env cache token
  match acq.res with
  | .error _ =>
      { result := .ok (generate_policy (.s "unknown") "Deny" arn none),
        cache := acq.cache, refreshCount := acq.fetches,
        decodeCalls := acq.decodeCalls, engineCalled := false, authRequest := none }
  | .ok claims =>
      match validate_claims claims env.client_id env.region env.user_pool_id with
      | .error _ =>
          { result := .ok (generate_policy (.s "unknown") "Deny" arn none),
            cache := acq.cache, refreshCount := acq.fetches,
            decodeCalls := acq.decodeCalls, engineCalled := false, authRequest := none }
      | .ok _ =>
          let principal_id := (dlookup claims "cognito:username").getD (.s "unknown")
          match firstOrUnknown (dlookup claims "cognito:groups") with
          | .error err =>
              { result := .error err, cache := acq.cache, refreshCount := acq.fetches,
                decodeCalls := acq.decodeCalls, engineCalled := false, authRequest := none }
          | .ok group_value =>
              let custom_attrs := extract_custom_attributes claims
              let auth_request := build_auth_request env.policy_store_id principal_id
                group_value custom_attrs "access" "my-resource"
              let effect := evaluate_policy (env.vpResult auth_request)
              { result := .ok (generate_policy principal_id effect arn none),
                cache := acq.cache, refreshCount := acq.fetches,
                decodeCalls := acq.decodeCalls, engineCalled := true,
                authRequest := some auth_request }

/-- The effect of the single statement of a returned policy, if a policy was
    returned at all. -/
def effectOf (r : HandlerResult) : Option String :=
  match r.result with
  | .ok resp => (resp.policyDocument.Statement.head?).map (fun st => st.Effect)
  | .error _ => none

/-- The attribute map of the first entity of the auxiliary entity list. -/
def principalAttrsOf (req : AuthRequest) : List (String × AttrVal) :=
  match req.entities.entityList with
  | e :: _ => e.attributes
  | [] => []

/-- The "group" attribute of the request the handler sent to the engine. -/
def groupAttrOf (r : HandlerResult) : Option AttrVal :=
  match r.authRequest with
  | some req => dlookup (principalAttrsOf req) "group"
  | none => none

/-- The "group" attribute as a raw string, when it is a wrapped string. -/
def groupAttrStrOf (r : HandlerResult) : Option String :=
  match groupAttrOf r with
  | some (.string (.s v)) => some v
  | _ => none

/-- Is this claim value something Python iter() accepts: a list, a string, or
    the absent-claim default list. -/
def iterableOpt : Option CVal → Bool
  | none => true
  | some (.arr _) => true
  | some (.s _) => true
  | some _ => false

/-! ## Dictionary lemmas -/

theorem dlookup_dinsert (k : String) (v : α) (d : List (String × α)) (k' : String) :
    dlookup (dinsert k v d) k' = if k == k' then some v else dlookup d k' := by
  induction d with
  | nil => simp [dinsert, dlookup]
  | cons p d ih =>
      by_cases h1 : p.1 = k
      · by_cases h2 : k = k' <;> simp [dinsert, dlookup, h1, h2]
      · by_cases h2 : p.1 = k'
        · have hkk : ¬ k = k' := fun he => h1 (h2.trans he.symm)
          have hkk2 : ¬ k' = k := fun he => hkk he.symm
          simp [dinsert, dlookup, h1, h2, hkk, hkk2]
        · simp [dinsert, dlookup, h1, h2, ih]

theorem mem_dinsert (k : String) (v : α) (d : List (String × α)) (q : String × α)
    (h : q ∈ dinsert k v d) : q = (k, v) ∨ q ∈ d := by
  induction d with
  | nil => simpa [dinsert] using h
  | cons p d ih =>
      by_cases h1 : p.1 = k
      · simp [dinsert, h1] at h
        rcases h with h | h
        · exact Or.inl h
        · exact Or.inr (List.mem_cons_of_mem _ h)
      · simp [dinsert, h1] at h
        rcases h with h | h
        · exact Or.inr (by simp [h])
        · rcases ih h with h' | h'
          · exact Or.inl h'
          · exact Or.inr (List.mem_cons_of_mem _ h')

theorem dlookup_append (a b : List (String × α)) (k : String) :
    dlookup (a ++ b) k =
      match dlookup a k with
      | some v => some v
      | none => dlookup b k := by
  induction a with
  | nil => simp [dlookup]
  | cons p a ih =>
      by_cases h : p.1 = k <;> simp [dlookup, h, ih]

theorem dinsert_of_absent (k : String) (v : α) (d : List (String × α))
    (h : dlookup d k = none) : dinsert k v d = d ++ [(k, v)] := by
  induction d with
  | nil => simp [dinsert]
  | cons p d ih =>
      by_cases h1 : p.1 = k
      · simp [dlookup, h1] at h
      · simp [dlookup, h1] at h
        simp [dinsert, h1, ih h]

theorem insertAll_nil (init : List (String × α)) : insertAll [] init = init := rfl

theorem insertAll_cons (p : String × α) (l : List (String × α)) (init : List (String × α)) :
    insertAll (p :: l) init = insertAll l (dinsert p.1 p.2 init) := rfl

theorem dlookup_insertAll (l : List (String × α)) (init : List (String × α)) (k : String) :
    dlookup (insertAll l init) k =
      match lastVal k l with
      | some v => some v
      | none => dlookup init k := by
  induction l generalizing init with
  | nil => simp [insertAll, lastVal]
  | cons p l ih =>
      rw [insertAll_cons, ih]
      cases hl : lastVal k l with
      | some v => simp [lastVal, hl]
      | none =>
          by_cases h : p.1 = k <;> simp [lastVal, hl, dlookup_dinsert, h]

theorem mem_insertAll (l init : List (String × α)) (q : String × α)
    (h : q ∈ insertAll l init) : q ∈ init ∨ q ∈ l := by
  induction l generalizing init with
  | nil => exact Or.inl h
  | cons p l ih =>
      rw [insertAll_cons] at h
      rcases ih _ h with h' | h'
      · rcases mem_dinsert _ _ _ _ h' with h'' | h''
        · right
          simp [h'']
        · exact Or.inl h''
      · exact Or.inr (List.mem_cons_of_mem _ h')

theorem insertAll_of_nodup (l init : List (String × α))
    (hnd : (l.map Prod.fst).Nodup)
    (hfresh : ∀ p ∈ l, dlookup init p.1 = none) :
    insertAll l init = init ++ l := by
  induction l generalizing init with
  | nil => simp [insertAll]
  | cons p l ih =>
      rw [insertAll_cons, dinsert_of_absent _ _ _ (hfresh p (List.mem_cons_self _ _))]
      rw [List.map_cons, List.nodup_cons] at hnd
      rw [ih (init ++ [(p.1, p.2)]) hnd.2]
      · simp
      · intro q hq
        rw [dlookup_append]
        rw [hfresh q (List.mem_cons_of_mem _ hq)]
        have hne : ¬ p.1 = q.1 := by
          intro he
          exact hnd.1 (he ▸ List.mem_map_of_mem Prod.fst hq)
        simp [dlookup, hne]

theorem lastVal_map (k : String) (f : β → γ) (l : List (String × β)) :
    lastVal k (l.map (fun p => (p.1, f p.2))) = (lastVal k l).map f := by
  induction l with
  | nil => simp [lastVal]
  | cons p l ih =>
      cases hl : lastVal k l with
      | some v => simp [lastVal, ih, hl]
      | none => by_cases h : p.1 = k <;> simp [lastVal, ih, hl, h]

theorem lastVal_eq_none (k : String) (l : List (String × α))
    (h : ∀ p ∈ l, ¬ p.1 = k) : lastVal k l = none := by
  induction l with
  | nil => rfl
  | cons p l ih =>
      have hp := h p (List.mem_cons_self _ _)
      have ht := ih (fun q hq => h q (List.mem_cons_of_mem _ hq))
      simp [lastVal, ht, hp]

/-! ## String lemmas -/

theorem isPrefixOf_append_self (l t : List Char) : l.isPrefixOf (l ++ t) = true := by
  induction l with
  | nil => cases t <;> rfl
  | cons c l ih => simp [List.isPrefixOf, ih]

theorem eq_append_drop_of_isPrefixOf {l s : List Char}
    (h : l.isPrefixOf s = true) : s = l ++ s.drop l.length := by
  induction l generalizing s with
  | nil => simp
  | cons c l ih =>
      cases s with
      | nil => simp [List.isPrefixOf] at h
      | cons a s =>
          simp only [List.isPrefixOf, Bool.and_eq_true, beq_iff_eq] at h
          obtain ⟨h1, h2⟩ := h
          subst h1
          simpa using ih h2

theorem replAllAux_skip (pat l s : List Char) :
    replAllAux pat (l ++ s) l.length = replAllAux pat s 0 := by
  induction l with
  | nil => rfl
  | cons c l ih => simpa [replAllAux] using ih

theorem replAll_of_not_contains (pat s : List Char)
    (h : pyContains pat s = false) : replAll pat s = s := by
  induction s with
  | nil => rfl
  | cons c cs ih =>
      simp only [pyContains, Bool.or_eq_false_iff] at h
      obtain ⟨h1, h2⟩ := h
      show replAllAux pat (c :: cs) 0 = c :: cs
      rw [replAllAux]
      simp only [h1]
      simp only [false_and, if_false, Bool.false_eq_true]
      exact congrArg (c :: ·) (ih h2)

theorem replAll_cancel (pat rest : List Char) (hne : pat ≠ [])
    (h : pyContains pat rest = false) : replAll pat (pat ++ rest) = rest := by
  cases pat with
  | nil => exact absurd rfl hne
  | cons c ps =>
      have hpre : (c :: ps).isPrefixOf (c :: (ps ++ rest)) = true :=
        isPrefixOf_append_self (c :: ps) rest
      show replAllAux (c :: ps) ((c :: ps) ++ rest) 0 = rest
      rw [List.cons_append, replAllAux, if_pos (And.intro hpre (by simp))]
      have hs : replAllAux (c :: ps) (ps ++ rest) ps.length = replAllAux (c :: ps) rest 0 :=
        replAllAux_skip _ _ _
      simp only [List.length_cons, Nat.add_sub_cancel]
      rw [hs]
      exact replAll_of_not_contains _ _ h

/-! ## Handler-level helper lemmas -/

theorem handler_refreshCount (env : Env) (cache : Jwks) (event : Event) :
    (lambda_handler env cache event).refreshCount =
      (acquire_claims env cache (eventToken event)).fetches := by
  simp only [lambda_handler]
  repeat first | rfl | split

theorem handler_decodeCalls (env : Env) (cache : Jwks) (event : Event) :
    (lambda_handler env cache event).decodeCalls =
      (acquire_claims env cache (eventToken event)).decodeCalls := by
  simp only [lambda_handler]
  repeat first | rfl | split

theorem handler_cache (env : Env) (cache : Jwks) (event : Event) :
    (lambda_handler env cache event).cache =
      (acquire_claims env cache (eventToken event)).cache := by
  simp only [lambda_handler]
  repeat first | rfl | split

theorem acquire_ok_decode (env : Env) (cache : Jwks) (token : String) (claims : Claims)
    (h : (acquire_claims env cache token).res = .ok claims) :
    env.decode token cache = .ok claims ∨
      env.decode token (fetch_jwks env.fetchOutcome) = .ok claims := by
  unfold acquire_claims decode_and_validate_token at h
  cases hdec : env.decode token cache with
  | ok c =>
      rw [hdec] at h
      simp at h
      subst h
      exact Or.inl rfl
  | error e =>
      rw [hdec] at h
      simp only [refresh_jwks_and_retry] at h
      by_cases hc : pyContains ("Key not found").data e.msg.data
      · simp only [hc, if_true] at h
        exact Or.inr h
      · simp only [hc, if_false] at h
        simp at h

theorem evaluate_policy_allow_or_deny (r : Except VPError VPResp) :
    evaluate_policy r = "Allow" ∨ evaluate_policy r = "Deny" := by
  cases r with
  | error e => exact Or.inr rfl
  | ok resp =>
      unfold evaluate_policy
      by_cases h : resp.decision.getD "DENY" = "ALLOW" <;> simp [h]

theorem firstOrUnknown_ok_of_iterable (v : Option CVal) (h : iterableOpt v = true) :
    ∃ g, firstOrUnknown v = .ok g := by
  match v with
  | none => exact ⟨_, rfl⟩
  | some (.arr []) => exact ⟨_, rfl⟩
  | some (.arr (g :: gs)) => exact ⟨_, rfl⟩
  | some (.s t) =>
      match ht : t.data with
      | [] => exact ⟨.s "Unknown", by simp [firstOrUnknown, ht]⟩
      | c :: cs => exact ⟨.s ⟨[c]⟩, by simp [firstOrUnknown, ht]⟩
  | some (.num n) => simp [iterableOpt] at h
  | some (.bool b) => simp [iterableOpt] at h
  | some .null => simp [iterableOpt] at h

/-! ## Claim theorems -/

/-- C6: evaluate_policy returns Allow exactly when the policy engine call
    succeeds with the explicit ALLOW decision; an explicit deny decision, a
    missing decision field, a client error and any unexpected exception all
    yield Deny, and the function is total, so no failure reaches the caller. -/
theorem c6_evaluate_policy_fail_closed (r : Except VPError VPResp) :
    (evaluate_policy r = "Allow" ∨ evaluate_policy r = "Deny") ∧
    (evaluate_policy r = "Allow" ↔
      ∃ resp, r = .ok resp ∧ resp.decision = some "ALLOW") := by
  refine ⟨evaluate_policy_allow_or_deny r, ?_, ?_⟩
  · intro h
    cases r with
    | error e => exact absurd h (by simp [evaluate_policy])
    | ok resp =>
        refine ⟨resp, rfl, ?_⟩
        cases hd : resp.decision with
        | none => simp [evaluate_policy, hd] at h
        | some v =>
            by_cases hv : v = "ALLOW"
            · rw [hv]
            · simp [evaluate_policy, hd, hv] at h
  · rintro ⟨resp, rfl, hd⟩
    simp [evaluate_policy, hd]

/-- C7: generate_policy is total and always yields the fixed-version document
    with exactly one statement carrying the given effect, the gateway invoke
    action and the given resource pattern; the principal id is written into
    the context under the fixed key "username", and every caller-supplied
    context entry under any other key survives unchanged. -/
theorem c7_generate_policy_total (pid : CVal) (effect resource : String)
    (ctx : Option (List (String × CVal))) :
    (generate_policy pid effect resource ctx).policyDocument.Version = "2012-10-17" ∧
    (generate_policy pid effect resource ctx).policyDocument.Statement =
      [{ Action := "execute-api:Invoke", Effect := effect, Resource := resource }] ∧
    dlookup (generate_policy pid effect resource ctx).context "username" = some pid ∧
    (∀ k v, ¬ k = "username" → dlookup (ctx.getD []) k = some v →
      dlookup (generate_policy pid effect resource ctx).context k = some v) := by
  refine ⟨rfl, rfl, ?_, ?_⟩
  · simp only [generate_policy]
    rw [dlookup_dinsert]
    simp
  · intro k v hk hv
    have hk2 : ¬ "username" = k := fun he => hk he.symm
    simp only [generate_policy]
    rw [dlookup_dinsert]
    simp [hk2, hv]

/-- Witness for C7 at a concrete input: a caller-supplied context entry under
    a key other than "username" survives into the returned context. -/
theorem c7_generate_policy_total_witness :
    dlookup (generate_policy (.s "alice") "Allow" "arn:aws:execute-api:abc"
      (some [("scope", .s "read")])).context "scope" = some (.s "read") :=
  (c7_generate_policy_total (.s "alice") "Allow" "arn:aws:execute-api:abc"
    (some [("scope", .s "read")])).2.2.2 "scope" (.s "read") (by decide) rfl

/-- C8: the request built by build_auth_request carries exactly one auxiliary
    entity, whose identifier coincides with the principal reference used as
    the query subject (same entityType and same entityId), and every attribute
    value placed on that entity carries the string type tag. -/
theorem c8_principal_entity_invariant (psid : String) (pid gv : CVal)
    (customs : List (String × CVal)) (aid rid : String) :
    ∃ e, (build_auth_request psid pid gv customs aid rid).entities.entityList = [e] ∧
      e.identifier.entityType =
        (build_auth_request psid pid gv customs aid rid).principal.entityType ∧
      e.identifier.entityId =
        (build_auth_request psid pid gv customs aid rid).principal.entityId ∧
      ∀ p ∈ e.attributes, ∃ v, p.2 = AttrVal.string v := by
  refine ⟨_, rfl, rfl, rfl, ?_⟩
  intro p hp
  have hmem := mem_insertAll (customs.map (fun q => (q.1, wrap_value q.2)))
    [("group", wrap_value gv)] p (by exact hp)
  rcases hmem with h | h
  · simp at h
    subst h
    exact ⟨gv, rfl⟩
  · rcases List.mem_map.mp h with ⟨q, hq, hpq⟩
    refine ⟨q.2, ?_⟩
    rw [← hpq]
    rfl

/-- Witness for C8 at a concrete input. -/
theorem c8_principal_entity_invariant_witness :
    ∃ e, (build_auth_request "ps" (.s "alice") (.s "g") [("dept", .s "x")]
        "access" "my-resource").entities.entityList = [e] ∧
      e.identifier.entityType =
        (build_auth_request "ps" (.s "alice") (.s "g") [("dept", .s "x")]
          "access" "my-resource").principal.entityType ∧
      e.identifier.entityId =
        (build_auth_request "ps" (.s "alice") (.s "g") [("dept", .s "x")]
          "access" "my-resource").principal.entityId ∧
      ∀ p ∈ e.attributes, ∃ v, p.2 = AttrVal.string v :=
  c8_principal_entity_invariant "ps" (.s "alice") (.s "g") [("dept", .s "x")]
    "access" "my-resource"

/-- C9: in build_auth_request the custom attributes are assigned into the
    principal attribute map after the "group" literal, so the "group" key is
    always present; a custom attribute whose key is "group" overwrites the
    supplied group value (the last assignment wins), and otherwise the
    supplied group value survives. -/
theorem c9_custom_group_last_writer_wins (psid : String) (pid gv : CVal)
    (customs : List (String × CVal)) (aid rid : String) :
    (dlookup (principalAttrsOf (build_auth_request psid pid gv customs aid rid))
        "group").isSome = true ∧
    (∀ v, lastVal "group" customs = some v →
      dlookup (principalAttrsOf (build_auth_request psid pid gv customs aid rid))
        "group" = some (wrap_value v)) ∧
    (lastVal "group" customs = none →
      dlookup (principalAttrsOf (build_auth_request psid pid gv customs aid rid))
        "group" = some (wrap_value gv)) := by
  have hattrs : principalAttrsOf (build_auth_request psid pid gv customs aid rid) =
      insertAll (customs.map (fun p => (p.1, wrap_value p.2)))
        [("group", wrap_value gv)] := rfl
  rw [hattrs]
  simp only [dlookup_insertAll, lastVal_map]
  cases hl : lastVal "group" customs with
  | some v =>
      refine ⟨by simp, ?_, ?_⟩
      · intro v' hv'
        cases hv'
        simp
      · intro hv'
        cases hv'
  | none =>
      refine ⟨?_, ?_, ?_⟩
      · simp [dlookup]
      · intro v' hv'
        cases hv'
      · intro _
        simp [dlookup]

/-- Witness for C9 at a concrete input: a custom attribute under key "group"
    overwrites the supplied group value. -/
theorem c9_custom_group_last_writer_wins_witness :
    dlookup (principalAttrsOf (build_auth_request "ps" (.s "bob") (.s "Unknown")
      [("group", .s "hacked")] "access" "my-resource")) "group"
      = some (wrap_value (.s "hacked")) :=
  (c9_custom_group_last_writer_wins "ps" (.s "bob") (.s "Unknown")
    [("group", .s "hacked")] "access" "my-resource").2.1 (.s "hacked") rfl

/-! ## C4: key stripping in extract_custom_attributes -/

/-- Modelled from the claim wording of C4: keep the claims whose name starts
    with "custom:" and strip exactly the leading marker from the key, leaving
    the value untouched. Stated for comparison with the code. -/
def leadStripFn (p : String × CVal) : Option (String × CVal) :=
  if ("custom:").data.isPrefixOf p.1.data then
    some ((⟨p.1.data.drop ("custom:").data.length⟩ : String), p.2)
  else none

/-- Modelled from the claim wording of C4: the extraction as the claim reads
    it, stripping only the leading marker. -/
def extract_leading_strip (claims : Claims) : List (String × CVal) :=
  claims.filterMap leadStripFn

theorem extract_produced_eq (claims : Claims)
    (hno : ∀ p ∈ claims, ("custom:").data.isPrefixOf p.1.data = true →
      pyContains ("custom:").data (p.1.data.drop ("custom:").data.length) = false) :
    (claims.filter (fun p => ("custom:").data.isPrefixOf p.1.data)).map
      (fun p => (pyRemoveAll "custom:" p.1, p.2)) = claims.filterMap leadStripFn := by
  induction claims with
  | nil => rfl
  | cons p l ih =>
      have hno' : ∀ q ∈ l, ("custom:").data.isPrefixOf q.1.data = true →
          pyContains ("custom:").data (q.1.data.drop ("custom:").data.length) = false :=
        fun q hq hc => hno q (List.mem_cons_of_mem _ hq) hc
      by_cases h : ("custom:").data.isPrefixOf p.1.data = true
      · have hkey : pyRemoveAll "custom:" p.1 =
            (⟨p.1.data.drop ("custom:").data.length⟩ : String) := by
          unfold pyRemoveAll
          congr 1
          have hd := eq_append_drop_of_isPrefixOf h
          conv_lhs => rw [hd]
          exact replAll_cancel _ _ (by decide) (hno p (List.mem_cons_self _ _) h)
        have hfp : leadStripFn p =
            some ((⟨p.1.data.drop ("custom:").data.length⟩ : String), p.2) := by
          simp [leadStripFn, h]
        simp only [List.filter_cons, h, if_true, List.map_cons, List.filterMap_cons, hfp]
        rw [hkey, ih hno']
      · have hfp : leadStripFn p = none := by simp [leadStripFn, h]
        simp only [List.filter_cons, h, List.filterMap_cons, hfp, Bool.false_eq_true, if_false]
        exact ih hno'

theorem strip_inj {k₁ k₂ : String}
    (h1 : ("custom:").data.isPrefixOf k₁.data = true)
    (h2 : ("custom:").data.isPrefixOf k₂.data = true)
    (he : (⟨k₁.data.drop ("custom:").data.length⟩ : String)
        = (⟨k₂.data.drop ("custom:").data.length⟩ : String)) : k₁ = k₂ := by
  have hd1 := eq_append_drop_of_isPrefixOf h1
  have hd2 := eq_append_drop_of_isPrefixOf h2
  have hds : k₁.data.drop ("custom:").data.length = k₂.data.drop ("custom:").data.length :=
    congrArg String.data he
  obtain ⟨d₁⟩ := k₁
  obtain ⟨d₂⟩ := k₂
  simp only at hd1 hd2 hds
  rw [show d₁ = ("custom:").data ++ List.drop ("custom:").data.length d₁ from hd1]
  rw [show d₂ = ("custom:").data ++ List.drop ("custom:").data.length d₂ from hd2]
  rw [hds]

theorem mem_keys_leading_strip {l : Claims} {k : String}
    (h : k ∈ (l.filterMap leadStripFn).map Prod.fst) :
    ∃ q ∈ l, ("custom:").data.isPrefixOf q.1.data = true ∧
      k = (⟨q.1.data.drop ("custom:").data.length⟩ : String) := by
  rcases List.mem_map.mp h with ⟨pr, hpr, hk⟩
  rcases List.mem_filterMap.mp hpr with ⟨q, hq, hfq⟩
  by_cases hc : ("custom:").data.isPrefixOf q.1.data = true
  · refine ⟨q, hq, hc, ?_⟩
    simp only [leadStripFn, hc, if_true] at hfq
    have hpr2 := Option.some.inj hfq
    rw [← hk, ← hpr2]
  · simp [leadStripFn, hc] at hfq

theorem leading_strip_keys_nodup (claims : Claims)
    (hnd : (claims.map Prod.fst).Nodup) :
    ((claims.filterMap leadStripFn).map Prod.fst).Nodup := by
  induction claims with
  | nil => simp
  | cons p l ih =>
      rw [List.map_cons, List.nodup_cons] at hnd
      by_cases hc : ("custom:").data.isPrefixOf p.1.data = true
      · have hfp : leadStripFn p =
            some ((⟨p.1.data.drop ("custom:").data.length⟩ : String), p.2) := by
          simp [leadStripFn, hc]
        simp only [List.filterMap_cons, hfp, List.map_cons]
        rw [List.nodup_cons]
        refine ⟨?_, ih hnd.2⟩
        intro hmem
        rcases mem_keys_leading_strip hmem with ⟨q, hq, hcq, he⟩
        have hpq : p.1 = q.1 := strip_inj hc hcq he
        exact hnd.1 (hpq ▸ List.mem_map_of_mem Prod.fst hq)
      · have hfp : leadStripFn p = none := by simp [leadStripFn, hc]
        simp only [List.filterMap_cons, hfp]
        exact ih hnd.2

/-- Counterexample to C4 as stated: on the claim name "custom:custom:department"
    the code removes both occurrences of "custom:" and yields the key
    "department", while stripping only the leading marker and applying no
    other transformation would yield "custom:department". -/
theorem c4_replace_all_counterexample :
    (extract_custom_attributes [("custom:custom:department", CVal.s "finance")]).map
        Prod.fst = ["department"] ∧
    (extract_leading_strip [("custom:custom:department", CVal.s "finance")]).map
        Prod.fst = ["custom:department"] ∧
    (extract_custom_attributes [("custom:custom:department", CVal.s "finance")]).map
        Prod.fst ≠
      (extract_leading_strip [("custom:custom:department", CVal.s "finance")]).map
        Prod.fst := by
  refine ⟨?_, ?_, ?_⟩ <;> decide

/-- C4 (amended): the extracted custom attributes are exactly the claims whose
    name starts with "custom:", with every occurrence of "custom:" removed
    from the key (Python str.replace removes all occurrences, not only the
    leading one) and the value untouched; whenever no kept claim name contains
    "custom:" beyond its leading occurrence, this coincides with stripping
    exactly the leading marker and applying no other transformation. -/
theorem c4_extract_strips_marker (claims : Claims)
    (hnd : (claims.map Prod.fst).Nodup)
    (hno : ∀ p ∈ claims, ("custom:").data.isPrefixOf p.1.data = true →
      pyContains ("custom:").data (p.1.data.drop ("custom:").data.length) = false) :
    extract_custom_attributes claims = extract_leading_strip claims := by
  unfold extract_custom_attributes dictOfList
  rw [extract_produced_eq claims hno]
  rw [insertAll_of_nodup (claims.filterMap leadStripFn) []
    (leading_strip_keys_nodup claims hnd) (fun p _ => rfl)]
  simp [extract_leading_strip]

/-- Witness for C4 (amended) at a concrete input: the spec example, a
    "custom:department" claim valued "finance" next to an ordinary claim,
    where the code agrees with leading-marker stripping. -/
theorem c4_extract_strips_marker_witness :
    extract_custom_attributes [("custom:department", CVal.s "finance"), ("aud", CVal.s "c")]
      = extract_leading_strip [("custom:department", CVal.s "finance"), ("aud", CVal.s "c")] :=
  c4_extract_strips_marker _ (by decide) (by decide)

/-! ## Characterizing the acquisition and the handler paths -/

theorem acquire_of_decode_ok (env : Env) (cache : Jwks) (token : String) (claims : Claims)
    (h : env.decode token cache = .ok claims) :
    acquire_claims env cache token =
      { res := .ok claims, cache := cache, fetches := 0, decodeCalls := 1 } := by
  simp [acquire_claims, decode_and_validate_token, h]

theorem acquire_of_keynotfound (env : Env) (cache : Jwks) (token : String) (e : JoseError)
    (h : env.decode token cache = .error e)
    (hc : pyContains ("Key not found").data e.msg.data = true) :
    acquire_claims env cache token =
      { res := env.decode token (fetch_jwks env.fetchOutcome),
        cache := fetch_jwks env.fetchOutcome, fetches := 1, decodeCalls := 2 } := by
  simp [acquire_claims, decode_and_validate_token, h, refresh_jwks_and_retry, hc]

theorem acquire_of_other_error (env : Env) (cache : Jwks) (token : String) (e : JoseError)
    (h : env.decode token cache = .error e)
    (hc : pyContains ("Key not found").data e.msg.data = false) :
    acquire_claims env cache token =
      { res := .error ⟨e.msg⟩, cache := cache, fetches := 0, decodeCalls := 1 } := by
  simp [acquire_claims, decode_and_validate_token, h, refresh_jwks_and_retry, hc]

theorem handler_of_acquire_error (env : Env) (cache : Jwks) (event : Event) (e : JoseError)
    (hacq : (acquire_claims env cache (eventToken event)).res = .error e) :
    (lambda_handler env cache event).result =
      .ok (generate_policy (.s "unknown") "Deny" ((event.methodArn).getD "*") none) := by
  simp only [lambda_handler]
  rw [hacq]

theorem handler_of_validate_error (env : Env) (cache : Jwks) (event : Event)
    (claims : Claims) (err : ValueErr)
    (hacq : (acquire_claims env cache (eventToken event)).res = .ok claims)
    (hval : validate_claims claims env.client_id env.region env.user_pool_id = .error err) :
    (lambda_handler env cache event).result =
        .ok (generate_policy (.s "unknown") "Deny" ((event.methodArn).getD "*") none) ∧
    (lambda_handler env cache event).engineCalled = false := by
  simp only [lambda_handler]
  rw [hacq]
  dsimp only
  rw [hval]
  exact ⟨rfl, rfl⟩

theorem handler_of_groups_type_error (env : Env) (cache : Jwks) (event : Event)
    (claims : Claims)
    (hacq : (acquire_claims env cache (eventToken event)).res = .ok claims)
    (hval : validate_claims claims env.client_id env.region env.user_pool_id = .ok ())
    (hgr : firstOrUnknown (dlookup claims "cognito:groups") = .error .typeError) :
    (lambda_handler env cache event).result = .error .typeError := by
  simp only [lambda_handler]
  rw [hacq]
  dsimp only
  rw [hval]
  dsimp only
  rw [hgr]

theorem handler_of_success (env : Env) (cache : Jwks) (event : Event)
    (claims : Claims) (g : CVal)
    (hacq : (acquire_claims env cache (eventToken event)).res = .ok claims)
    (hval : validate_claims claims env.client_id env.region env.user_pool_id = .ok ())
    (hgr : firstOrUnknown (dlookup claims "cognito:groups") = .ok g) :
    (lambda_handler env cache event).result =
        .ok (generate_policy ((dlookup claims "cognito:username").getD (.s "unknown"))
          (evaluate_policy (env.vpResult (build_auth_request env.policy_store_id
            ((dlookup claims "cognito:username").getD (.s "unknown")) g
            (extract_custom_attributes claims) "access" "my-resource")))
          ((event.methodArn).getD "*") none) ∧
    (lambda_handler env cache event).engineCalled = true ∧
    (lambda_handler env cache event).authRequest =
      some (build_auth_request env.policy_store_id
        ((dlookup claims "cognito:username").getD (.s "unknown")) g
        (extract_custom_attributes claims) "access" "my-resource") := by
  refine ⟨?_, ?_, ?_⟩ <;>
    (simp only [lambda_handler]
     rw [hacq]
     dsimp only
     rw [hval]
     dsimp only
     rw [hgr])

theorem effectOf_of_ok_generate (r : HandlerResult) (pid : CVal) (eff arn : String)
    (h : r.result = .ok (generate_policy pid eff arn none)) :
    effectOf r = some eff := by
  unfold effectOf
  rw [h]
  rfl

/-- C2: per evaluation the key set is re-fetched at most once. A first decode
    failure whose message mentions the missing key triggers exactly one
    re-fetch and exactly one retry of the verifier (two decode calls in all),
    and a failing retry ends in the Deny policy with no further refresh; a
    first failure not mentioning a missing key triggers no refresh at all and
    ends in the Deny policy after the single decode call. -/
theorem c2_at_most_one_refresh (env : Env) (cache : Jwks) (event : Event) :
    (lambda_handler env cache event).refreshCount ≤ 1 ∧
    (∀ e, env.decode (eventToken event) cache = .error e →
      (pyContains ("Key not found").data e.msg.data = true →
        (lambda_handler env cache event).refreshCount = 1 ∧
        (lambda_handler env cache event).decodeCalls = 2 ∧
        (∀ e2, env.decode (eventToken event) (fetch_jwks env.fetchOutcome) = .error e2 →
          effectOf (lambda_handler env cache event) = some "Deny")) ∧
      (pyContains ("Key not found").data e.msg.data = false →
        (lambda_handler env cache event).refreshCount = 0 ∧
        (lambda_handler env cache event).decodeCalls = 1 ∧
        effectOf (lambda_handler env cache event) = some "Deny")) := by
  cases hdec : env.decode (eventToken event) cache with
  | ok claims =>
      have hacq := acquire_of_decode_ok env cache (eventToken event) claims hdec
      constructor
      · rw [handler_refreshCount, hacq]
        exact Nat.zero_le 1
      · intro e he
        cases he
  | error e0 =>
      by_cases hc : pyContains ("Key not found").data e0.msg.data = true
      · have hacq := acquire_of_keynotfound env cache (eventToken event) e0 hdec hc
        constructor
        · rw [handler_refreshCount, hacq]
        · intro e he
          injection he with he
          subst he
          constructor
          · intro _
            refine ⟨by rw [handler_refreshCount, hacq],
              by rw [handler_decodeCalls, hacq], ?_⟩
            intro e2 he2
            have hres : (acquire_claims env cache (eventToken event)).res = .error e2 := by
              rw [hacq]
              exact he2
            exact effectOf_of_ok_generate _ _ _ _
              (handler_of_acquire_error env cache event e2 hres)
          · intro hfalse
            rw [hc] at hfalse
            cases hfalse
      · rw [Bool.not_eq_true] at hc
        have hacq := acquire_of_other_error env cache (eventToken event) e0 hdec hc
        constructor
        · rw [handler_refreshCount, hacq]
          exact Nat.zero_le 1
        · intro e he
          injection he with he
          subst he
          constructor
          · intro htrue
            rw [htrue] at hc
            cases hc
          · intro _
            refine ⟨by rw [handler_refreshCount, hacq],
              by rw [handler_decodeCalls, hacq], ?_⟩
            have hres : (acquire_claims env cache (eventToken event)).res = .error ⟨e0.msg⟩ := by
              rw [hacq]
            exact effectOf_of_ok_generate _ _ _ _
              (handler_of_acquire_error env cache event ⟨e0.msg⟩ hres)

/-- Concrete environment for the C2 witness: the verifier always reports a
    missing key and the identity provider is unreachable. -/
def envC2 : Env :=
  { region := "r1", user_pool_id := "p1", client_id := "c1", policy_store_id := "ps1",
    decode := fun _ _ => .error ⟨"Key not found in JWKS"⟩,
    fetchOutcome := .error ⟨"connection timed out"⟩,
    vpResult := fun _ => .ok { decision := some "ALLOW" } }

/-- Concrete cache and event for the C2 witness. -/
def cacheC2 : Jwks := [("kid1", .s "material")]

/-- Concrete event for the C2 witness. -/
def eventC2 : Event :=
  { authorizationToken := some "Bearer tok", methodArn := some "arn:aws:execute-api:res" }

/-- Witness for C2 at a concrete input: a missing-key failure whose retry also
    fails performs exactly one refresh and yields the Deny policy. -/
theorem c2_at_most_one_refresh_witness :
    (lambda_handler envC2 cacheC2 eventC2).refreshCount = 1 ∧
    effectOf (lambda_handler envC2 cacheC2 eventC2) = some "Deny" := by
  have h := (c2_at_most_one_refresh envC2 cacheC2 eventC2).2
    ⟨"Key not found in JWKS"⟩ rfl
  have h1 := h.1 (by decide)
  exact ⟨h1.1, h1.2.2 ⟨"Key not found in JWKS"⟩ rfl⟩

/-- C10: when no refresh happens the cache is left exactly as it was; when the
    single refresh happens the cache is unconditionally replaced by the result
    of the new fetch before the retry, so a failing fetch during a refresh
    degrades the cache to the empty set for the following evaluations. -/
theorem c10_cache_frame_effect (env : Env) (cache : Jwks) (event : Event) :
    ((lambda_handler env cache event).refreshCount = 0 →
      (lambda_handler env cache event).cache = cache) ∧
    ((lambda_handler env cache event).refreshCount = 1 →
      (lambda_handler env cache event).cache = fetch_jwks env.fetchOutcome ∧
      (∀ err, env.fetchOutcome = .error err →
        (lambda_handler env cache event).cache = [])) := by
  rw [handler_refreshCount, handler_cache]
  cases hdec : env.decode (eventToken event) cache with
  | ok claims =>
      rw [acquire_of_decode_ok env cache (eventToken event) claims hdec]
      constructor
      · intro _
        rfl
      · intro h
        simp at h
  | error e0 =>
      by_cases hc : pyContains ("Key not found").data e0.msg.data = true
      · rw [acquire_of_keynotfound env cache (eventToken event) e0 hdec hc]
        constructor
        · intro h
          simp at h
        · intro _
          constructor
          · rfl
          · intro err herr
            show fetch_jwks env.fetchOutcome = []
            rw [herr]
            rfl
      · rw [Bool.not_eq_true] at hc
        rw [acquire_of_other_error env cache (eventToken event) e0 hdec hc]
        constructor
        · intro _
          rfl
        · intro h
          simp at h

/-- Concrete environment for the C10 witness. -/
def envC10 : Env :=
  { region := "r1", user_pool_id := "p1", client_id := "c1", policy_store_id := "ps1",
    decode := fun _ _ => .error ⟨"Key not found in key set"⟩,
    fetchOutcome := .error ⟨"identity provider unreachable"⟩,
    vpResult := fun _ => .ok { decision := some "ALLOW" } }

/-- Concrete populated cache for the C10 witness. -/
def cacheC10 : Jwks := [("kid1", .s "material")]

/-- Concrete event for the C10 witness. -/
def eventC10 : Event :=
  { authorizationToken := some "Bearer tok", methodArn := some "arn:aws:execute-api:res" }

/-- Witness for C10 at a concrete input: a populated cache is degraded to the
    empty key set by a refresh whose fetch fails. -/
theorem c10_cache_frame_effect_witness :
    (lambda_handler envC10 cacheC10 eventC10).cache = [] :=
  ((c10_cache_frame_effect envC10 cacheC10 eventC10).2 (by decide)).2
    ⟨"identity provider unreachable"⟩ rfl

/-- C3: whenever the decoded claims carry an audience that is not string-equal
    to the configured client id, or an issuer that is not string-equal to the
    issuer derived from the configured region and user pool id, the evaluation
    ends in the Deny policy and the policy engine is never called. -/
theorem c3_claims_mismatch_denies_without_engine (env : Env) (cache : Jwks)
    (event : Event) (claims : Claims)
    (hacq : (acquire_claims env cache (eventToken event)).res = .ok claims)
    (hbad : cvalEqStr (dlookup claims "aud") env.client_id = false ∨
      cvalEqStr (dlookup claims "iss")
        (expected_issuer env.region env.user_pool_id) = false) :
    effectOf (lambda_handler env cache event) = some "Deny" ∧
    (lambda_handler env cache event).engineCalled = false := by
  have hval : ∃ err, validate_claims claims env.client_id env.region env.user_pool_id
      = .error err := by
    unfold validate_claims
    by_cases ha : cvalEqStr (dlookup claims "aud") env.client_id = false
    · exact ⟨⟨"Invalid audience"⟩, by simp [ha]⟩
    · rw [Bool.not_eq_false] at ha
      rcases hbad with h | h
      · rw [h] at ha
        cases ha
      · exact ⟨⟨"Invalid issuer"⟩, by simp [ha, h]⟩
  obtain ⟨err, hval⟩ := hval
  obtain ⟨h1, h2⟩ := handler_of_validate_error env cache event claims err hacq hval
  exact ⟨effectOf_of_ok_generate _ _ _ _ h1, h2⟩

/-- Concrete claims with a wrong audience for the C3 witness. -/
def claimsC3 : Claims :=
  [("aud", .s "someone-else"), ("iss", .s (expected_issuer "r1" "p1"))]

/-- Concrete environment for the C3 witness. -/
def envC3 : Env :=
  { region := "r1", user_pool_id := "p1", client_id := "c1", policy_store_id := "ps1",
    decode := fun _ _ => .ok claimsC3,
    fetchOutcome := .ok [],
    vpResult := fun _ => .ok { decision := some "ALLOW" } }

/-- Concrete event for the C3 witness. -/
def eventC3 : Event :=
  { authorizationToken := some "Bearer tok", methodArn := some "arn:aws:execute-api:res" }

/-- Witness for C3 at a concrete input: a wrong audience yields Deny without
    an engine call even though the engine would answer ALLOW. -/
theorem c3_claims_mismatch_denies_without_engine_witness :
    effectOf (lambda_handler envC3 [] eventC3) = some "Deny" ∧
    (lambda_handler envC3 [] eventC3).engineCalled = false :=
  c3_claims_mismatch_denies_without_engine envC3 [] eventC3 claimsC3 rfl
    (Or.inl (by decide))

/-! ## C5: the group value in the policy query -/

theorem mem_extract_keys {claims : Claims} {q : String × CVal}
    (h : q ∈ extract_custom_attributes claims) :
    ∃ p ∈ claims, ("custom:").data.isPrefixOf p.1.data = true ∧
      q.1 = pyRemoveAll "custom:" p.1 := by
  unfold extract_custom_attributes dictOfList at h
  rcases mem_insertAll _ _ _ h with h' | h'
  · cases h'
  · rcases List.mem_map.mp h' with ⟨p, hp, hq⟩
    rcases List.mem_filter.mp hp with ⟨hpc, hc⟩
    exact ⟨p, hpc, hc, by rw [← hq]⟩

theorem group_attr_of_success (env : Env) (cache : Jwks) (event : Event)
    (claims : Claims) (g : CVal)
    (hacq : (acquire_claims env cache (eventToken event)).res = .ok claims)
    (hval : validate_claims claims env.client_id env.region env.user_pool_id = .ok ())
    (hng : ∀ p ∈ claims, ("custom:").data.isPrefixOf p.1.data = true →
      ¬ pyRemoveAll "custom:" p.1 = "group")
    (hgr : firstOrUnknown (dlookup claims "cognito:groups") = .ok g) :
    groupAttrOf (lambda_handler env cache event) = some (wrap_value g) := by
  obtain ⟨-, -, hreq⟩ := handler_of_success env cache event claims g hacq hval hgr
  have hnone : lastVal "group" (extract_custom_attributes claims) = none := by
    apply lastVal_eq_none
    intro q hq hk
    rcases mem_extract_keys hq with ⟨p, hp, hc, hkey⟩
    exact hng p hp hc (by rw [← hkey, hk])
  have hattr : groupAttrOf (lambda_handler env cache event) =
      dlookup (insertAll ((extract_custom_attributes claims).map
          (fun p => (p.1, wrap_value p.2)))
        [("group", wrap_value g)]) "group" := by
    unfold groupAttrOf
    rw [hreq]
    rfl
  rw [hattr, dlookup_insertAll, lastVal_map, hnone]
  rfl

/-- C5 (amended): provided no custom attribute of the claims strips to the
    key "group", the group value carried into the policy query is the first
    entry of the group-membership claim when that claim is a non-empty list,
    and the sentinel "Unknown" when the claim is absent or an empty list,
    stored unchanged as the wrapped "group" attribute of the principal; a
    custom attribute stripping to "group" would overwrite it. -/
theorem c5_group_value_into_query (env : Env) (cache : Jwks) (event : Event)
    (claims : Claims)
    (hacq : (acquire_claims env cache (eventToken event)).res = .ok claims)
    (hval : validate_claims claims env.client_id env.region env.user_pool_id = .ok ())
    (hng : ∀ p ∈ claims, ("custom:").data.isPrefixOf p.1.data = true →
      ¬ pyRemoveAll "custom:" p.1 = "group") :
    ((dlookup claims "cognito:groups" = none ∨
        dlookup claims "cognito:groups" = some (.arr [])) →
      groupAttrOf (lambda_handler env cache event) = some (wrap_value (.s "Unknown"))) ∧
    (∀ g gs, dlookup claims "cognito:groups" = some (.arr (g :: gs)) →
      groupAttrOf (lambda_handler env cache event) = some (wrap_value g)) := by
  constructor
  · intro hlk
    have hgr : firstOrUnknown (dlookup claims "cognito:groups") = .ok (.s "Unknown") := by
      rcases hlk with h | h <;> rw [h] <;> rfl
    exact group_attr_of_success env cache event claims (.s "Unknown") hacq hval hng hgr
  · intro g gs hlk
    have hgr : firstOrUnknown (dlookup claims "cognito:groups") = .ok g := by
      rw [hlk]
      rfl
    exact group_attr_of_success env cache event claims g hacq hval hng hgr

/-- Concrete claims for the C5 counterexample: a valid token without a
    group-membership claim but with a "custom:group" claim. -/
def claimsC5x : Claims :=
  [("aud", .s "c1"), ("iss", .s (expected_issuer "r1" "p1")),
   ("custom:group", .s "hacked")]

/-- Concrete environment for the C5 counterexample. -/
def envC5x : Env :=
  { region := "r1", user_pool_id := "p1", client_id := "c1", policy_store_id := "ps1",
    decode := fun _ _ => .ok claimsC5x,
    fetchOutcome := .ok [],
    vpResult := fun _ => .ok { decision := some "ALLOW" } }

/-- Concrete event for the C5 counterexample. -/
def eventC5x : Event :=
  { authorizationToken := some "Bearer tok", methodArn := some "arn:aws:execute-api:res" }

/-- Counterexample to C5 as stated: the group-membership claim is absent, so
    the claim predicts the sentinel "Unknown" in the query attributes, but the
    "custom:group" claim overwrites it and the query carries "hacked". -/
theorem c5_custom_group_counterexample :
    groupAttrStrOf (lambda_handler envC5x [] eventC5x) = some "hacked" ∧
    ¬ groupAttrStrOf (lambda_handler envC5x [] eventC5x) = some "Unknown" := by
  refine ⟨?_, ?_⟩ <;> decide

/-- Concrete claims for the C5 witness: a valid token with a two-element
    group list and an unrelated custom attribute. -/
def claimsC5 : Claims :=
  [("aud", .s "c1"), ("iss", .s (expected_issuer "r1" "p1")),
   ("cognito:groups", .arr [.s "admins", .s "devs"]),
   ("custom:department", .s "finance")]

/-- Concrete environment for the C5 witness. -/
def envC5 : Env :=
  { region := "r1", user_pool_id := "p1", client_id := "c1", policy_store_id := "ps1",
    decode := fun _ _ => .ok claimsC5,
    fetchOutcome := .ok [],
    vpResult := fun _ => .ok { decision := some "ALLOW" } }

/-- Concrete event for the C5 witness. -/
def eventC5 : Event :=
  { authorizationToken := some "Bearer tok", methodArn := some "arn:aws:execute-api:res" }

/-- Witness for C5 (amended) at a concrete input: the first group entry
    reaches the query attribute map unchanged. -/
theorem c5_group_value_into_query_witness :
    groupAttrOf (lambda_handler envC5 [] eventC5) = some (wrap_value (.s "admins")) :=
  (c5_group_value_into_query envC5 [] eventC5 claimsC5 rfl rfl (by decide)).2
    (.s "admins") [.s "devs"] rfl

/-! ## C1: totality of the handler -/

/-- Concrete claims for the C1 counterexample: valid audience and issuer, but
    the group-membership claim is the number 0, which iter() rejects. -/
def claimsC1x : Claims :=
  [("aud", .s "c1"), ("iss", .s (expected_issuer "r1" "p1")),
   ("cognito:groups", .num 0)]

/-- Concrete environment for the C1 counterexample. -/
def envC1x : Env :=
  { region := "r1", user_pool_id := "p1", client_id := "c1", policy_store_id := "ps1",
    decode := fun _ _ => .ok claimsC1x,
    fetchOutcome := .ok [],
    vpResult := fun _ => .ok { decision := some "ALLOW" } }

/-- Concrete event for the C1 counterexample. -/
def eventC1x : Event :=
  { authorizationToken := some "Bearer tok", methodArn := some "arn:aws:execute-api:res" }

/-- Counterexample to C1 as stated: a token that verifies and passes the
    audience and issuer checks but whose group-membership claim is the number
    0 makes lambda_handler raise an uncaught TypeError from iter() instead of
    returning a policy document; only JoseError and ValueError are caught. -/
theorem c1_uncaught_type_error_counterexample :
    (lambda_handler envC1x [] eventC1x).result = .error .typeError := by
  rfl

/-- C1 (amended): as long as every claims map the verifier can produce has an
    iterable group-membership claim (absent, a list, or a string), the handler
    never raises: for every input event it returns a policy document whose
    single statement carries the gateway invoke action and an effect that is
    exactly "Allow" or "Deny", every error being absorbed into Deny; a
    non-iterable group-membership value (a number, a boolean or null) instead
    escapes as an uncaught TypeError from the group extraction. -/
theorem c1_handler_total_fail_closed (env : Env) (cache : Jwks) (event : Event)
    (hiter : ∀ tk jw claims, env.decode tk jw = .ok claims →
      iterableOpt (dlookup claims "cognito:groups") = true) :
    ∃ resp, (lambda_handler env cache event).result = .ok resp ∧
      resp.policyDocument.Version = "2012-10-17" ∧
      ∃ st, resp.policyDocument.Statement = [st] ∧
        st.Action = "execute-api:Invoke" ∧
        (st.Effect = "Allow" ∨ st.Effect = "Deny") := by
  cases hres : (acquire_claims env cache (eventToken event)).res with
  | error e =>
      exact ⟨_, handler_of_acquire_error env cache event e hres, rfl, _, rfl, rfl,
        Or.inr rfl⟩
  | ok claims =>
      cases hval : validate_claims claims env.client_id env.region env.user_pool_id with
      | error err =>
          obtain ⟨h1, -⟩ := handler_of_validate_error env cache event claims err hres hval
          exact ⟨_, h1, rfl, _, rfl, rfl, Or.inr rfl⟩
      | ok u =>
          cases u
          have hit : iterableOpt (dlookup claims "cognito:groups") = true := by
            rcases acquire_ok_decode env cache (eventToken event) claims hres with h | h
            · exact hiter _ _ _ h
            · exact hiter _ _ _ h
          obtain ⟨g, hgr⟩ := firstOrUnknown_ok_of_iterable _ hit
          obtain ⟨h1, -, -⟩ := handler_of_success env cache event claims g hres hval hgr
          exact ⟨_, h1, rfl, _, rfl, rfl, evaluate_policy_allow_or_deny _⟩

/-- Concrete claims for the C1 witness: a well-formed token payload. -/
def claimsC1 : Claims :=
  [("aud", .s "c1"), ("iss", .s (expected_issuer "r1" "p1")),
   ("cognito:username", .s "alice"), ("cognito:groups", .arr [.s "admins"])]

/-- Concrete environment for the C1 witness. -/
def envC1 : Env :=
  { region := "r1", user_pool_id := "p1", client_id := "c1", policy_store_id := "ps1",
    decode := fun _ _ => .ok claimsC1,
    fetchOutcome := .ok [],
    vpResult := fun _ => .ok { decision := some "ALLOW" } }

/-- Concrete event for the C1 witness. -/
def eventC1 : Event :=
  { authorizationToken := some "Bearer tok", methodArn := some "arn:aws:execute-api:res" }

/-- Witness for C1 (amended) at a concrete input with an iterable group
    claim: the handler returns a well-formed single-statement policy. -/
theorem c1_handler_total_fail_closed_witness :
    ∃ resp, (lambda_handler envC1 [] eventC1).result = .ok resp ∧
      resp.policyDocument.Version = "2012-10-17" ∧
      ∃ st, resp.policyDocument.Statement = [st] ∧
        st.Action = "execute-api:Invoke" ∧
        (st.Effect = "Allow" ∨ st.Effect = "Deny") :=
  c1_handler_total_fail_closed envC1 [] eventC1
    (by
      intro tk jw claims h
      injection h with h
      subst h
      rfl)
